import Mathlib

/-!
Shallow embedding of `mago.go` (package `mago`), a small process-orchestration
helper: command handles (`Cmd`), pipelines (`PipedCmds`, `pipe`, `call`),
process-group termination (`Cmd.KillGroup`), and the polling file watcher
(`refreshWatchFile`, `WatchFiles`).

OS effects are modelled by explicit parameters: each external process is a
pair of booleans (did it start, did it exit with status zero), each syscall
outcome is a boolean or an `Option`, timestamps are `Nat`, and the directory
tree visited by `filepath.Walk` is a finite tree value. Logging (`Info`,
`Error` writers) has no observable effect on any return value and is not
modelled.
-/

namespace Mago

/-- Helper for the `*` wildcard of the glob matcher: `matchStarAux next name`
lets the star consume any (possibly empty) run of non-separator characters of
`name`, after which `next` must match the remaining suffix. -/
def matchStarAux (next : List Char → Bool) : List Char → Bool
  | [] => next []
  | c :: n => next (c :: n) || (decide (c ≠ '/') && matchStarAux next n)

/-- Model of Go `path/filepath.Match` (an external stdlib collaborator called
at `mago.go:239`, `243`, `251`), restricted to patterns built from literal
characters, `?` and `*` (no character classes, no escapes; on this fragment
`Match` never returns `ErrBadPattern`, so the source's `err == nil` guards are
always satisfied). Per Go's documented semantics: `*` matches any sequence of
non-Separator characters, `?` matches any single non-Separator character, and
any other character matches itself. Defined through `List.rec` so that it
evaluates by kernel reduction. -/
def matchChars (ps : List Char) : List Char → Bool :=
  ps.rec (motive := fun _ => List Char → Bool)
    (fun name => name.isEmpty)
    (fun p _ps ih name =>
      if p = '*' then matchStarAux ih name
      else
        match name with
        | [] => false
        | c :: n => (if p = '?' then decide (c ≠ '/') else decide (p = c)) && ih n)

/-- `filepath.Match` on strings. -/
def matchGo (pattern name : String) : Bool :=
  matchChars pattern.toList name.toList

/-- One entry presented to the `filepath.Walk` callback of `WatchFiles`
(`mago.go:233`): its slash-joined path relative to `"."`, its base name
(`info.Name()`), its modification time, and whether the walk delivers an
error for it (`err != nil` on entry, e.g. an unreadable directory or a failed
`lstat`). -/
structure Entry where
  path : String
  name : String
  mtime : Nat
  isErr : Bool
deriving DecidableEq

/-- The ignore loop of the walk callback (`mago.go:238-247`): some ignored
pattern matches the full relative path or the base name. -/
def ignoreMatched (ignoredPatterns : List String) (path name : String) : Bool :=
  ignoredPatterns.any fun ip => matchGo ip path || matchGo ip name

/-- The watched-pattern loop of the walk callback (`mago.go:249-256`): some
watched pattern matches the base name (`patternMatched`). -/
def watchMatched (patterns : List String) (name : String) : Bool :=
  patterns.any fun p => matchGo p name

/-- Result of the walk callback for one entry: `cont` is `return nil`,
`skipAllChanged` is the `return fs.SkipAll` after marking
`watchedFileChanged = true` and refreshing the sentinel (`mago.go:263-267`),
`skipAllStat` is the `return fs.SkipAll` after a failed `watchFile.Stat()`
(`mago.go:258-262`), and `errAbort` is `return err` for a walk-delivered
error (`mago.go:234-236`). -/
inductive StepRes where
  | cont
  | skipAllChanged
  | skipAllStat
  | errAbort
deriving DecidableEq

/-- The body of the `filepath.Walk` callback of `WatchFiles`
(`mago.go:233-271`) for one entry, given the sentinel's modification time `m`
and whether `watchFile.Stat()` succeeds (`statOk`). `info.ModTime().After(...)`
is the strict comparison `m < e.mtime`. -/
def walkFn (patterns ignoredPatterns : List String) (m : Nat) (statOk : Bool)
    (e : Entry) : StepRes :=
  if e.isErr then .errAbort
  else if ignoreMatched ignoredPatterns e.path e.name then .cont
  else if watchMatched patterns e.name then
    if statOk then
      if m < e.mtime then .skipAllChanged else .cont
    else .skipAllStat
  else .cont

/-- Outcome of the whole `filepath.Walk` call: completed with no change,
aborted by `fs.SkipAll` with a change recorded, aborted by `fs.SkipAll` after
a sentinel-stat failure, or aborted by a walk error (in which case `Walk`
returns that error, which `WatchFiles` logs at `mago.go:273-275`). -/
inductive WalkRes where
  | noChange
  | changed
  | statFail
  | errored
deriving DecidableEq

/-- Run the walk callback over the entries in visit order. The callback never
returns `fs.SkipDir`, so the only aborts are global: the walk stops at the
first entry whose callback result is not `nil`. -/
def runWalk (patterns ignoredPatterns : List String) (m : Nat) (statOk : Bool) :
    List Entry → WalkRes
  | [] => .noChange
  | e :: rest =>
    match walkFn patterns ignoredPatterns m statOk e with
    | .cont => runWalk patterns ignoredPatterns m statOk rest
    | .skipAllChanged => .changed
    | .skipAllStat => .statFail
    | .errAbort => .errored

/-- A node of the directory tree under the working directory `"."` that
`filepath.Walk` traverses: a regular file with a modification time, an entry
whose visit delivers a walk error (unreadable directory / failed `lstat`),
or a directory with a modification time and children in lexical order. -/
inductive FSNode where
  | file (name : String) (mtime : Nat)
  | errEntry (name : String)
  | dir (name : String) (mtime : Nat) (children : List FSNode)

/-- `filepath.Join` as used by the walk: joining the root `"."` with a child
name yields the bare name, deeper levels are slash-joined. The empty parent
marks the artificial position above the root. -/
def joinPath (parent name : String) : String :=
  if parent = "" then name
  else if parent = "." then name
  else parent ++ "/" ++ name

mutual
/-- The sequence of entries `filepath.Walk` presents for one node: the node
itself first, then (for a directory) its children in order. The callback of
`WatchFiles` never returns `fs.SkipDir`, so descent is never pruned; any
`fs.SkipAll`/error abort is applied globally by `runWalk` on this flattened
sequence. -/
def preorderNode (parent : String) : FSNode → List Entry
  | .file n m => [⟨joinPath parent n, n, m, false⟩]
  | .errEntry n => [⟨joinPath parent n, n, 0, true⟩]
  | .dir n m cs => ⟨joinPath parent n, n, m, false⟩ :: preorderList (joinPath parent n) cs

/-- `preorderNode` mapped over a list of siblings, concatenated in order. -/
def preorderList (parent : String) : List FSNode → List Entry
  | [] => []
  | c :: cs => preorderNode parent c ++ preorderList parent cs
end

/-- All entries of a walk rooted at `root` (the node for `"."` itself is
visited first, with path and name `"."`). -/
def preorderRoot (root : FSNode) : List Entry := preorderNode "" root

/-- `refreshWatchFile` (`mago.go:215-223`): create a fresh sentinel temp file.
On success the sentinel exists with the current time as modification time; on
`os.CreateTemp` failure the package-level `watchFile` is set to `nil` and the
function reports `false`. The sentinel state is its modification time when it
exists (`some m`) and `none` when `watchFile == nil`. -/
def refreshWatchFile (createOk : Bool) (now : Nat) : Option Nat :=
  if createOk then some now else none

/-- The body of `WatchFiles` after the sentinel is known to exist
(`mago.go:232-277`): run the walk; on a recorded change the sentinel was
refreshed inside the callback (`mago.go:265`, return value ignored there) and
the call returns `true`; on every other outcome (walk completed, sentinel
stat failure, walk error, each merely logged) the call returns `false` and
the sentinel is unchanged. -/
def checkWalk (patterns ignoredPatterns : List String) (root : FSNode)
    (now : Nat) (createOk statOk : Bool) (m : Nat) : Bool × Option Nat :=
  match runWalk patterns ignoredPatterns m statOk (preorderRoot root) with
  | .changed => (true, refreshWatchFile createOk now)
  | _ => (false, some m)

/-- `WatchFiles` (`mago.go:225-278`). State across calls is the sentinel
(`watchFile`): `none` when it does not exist yet. Environment of one call:
the tree `root` under `"."`, the current time `now` (modification time given
to any sentinel created during this call), whether `os.CreateTemp` succeeds
(`createOk`) and whether `watchFile.Stat()` succeeds (`statOk`). Returns the
reported boolean and the new sentinel state. -/
def WatchFiles (patterns ignoredPatterns : List String) (root : FSNode)
    (now : Nat) (createOk statOk : Bool) (watchFile : Option Nat) :
    Bool × Option Nat :=
  match watchFile with
  | none =>
    match refreshWatchFile createOk now with
    | none => (false, none)
    | some m => checkWalk patterns ignoredPatterns root now createOk statOk m
  | some m => checkWalk patterns ignoredPatterns root now createOk statOk m

/-- Behaviour of one pipeline stage's external process: whether
`exec.Cmd.Start` succeeds (`startOk`) and whether `Wait` returns `nil`, i.e.
the process exits with status zero (`exitOk`). -/
structure StageBeh where
  startOk : Bool
  exitOk : Bool
deriving DecidableEq

/-- `call` (`mago.go:131-151`). `headStarted` records whether `stack[0]` was
already started by the enclosing frame (`stack[0].Process() == nil` check).
Returns `none` when `stack[0]` is an out-of-bounds access (empty stack), and
otherwise `some ok` where `ok` says the returned error is `nil`. Note the
named return `err` is still `nil` in both failed-`Start` branches, so those
branches return a `nil` error. The deferred closure runs only when the head's
`Wait` returned `nil`: it closes `pipes[0]` and recurses on `stack[1:]` with
the recursion's error as the final result. -/
def call : Bool → List StageBeh → Option Bool
  | _, [] => none
  | headStarted, s :: rest =>
    if !headStarted && !s.startOk then some true
    else
      match rest with
      | [] => some s.exitOk
      | s1 :: _ =>
        if !s1.startOk then some true
        else if s.exitOk then call true rest
        else some false

/-- `pipe` (`mago.go:116-129`): allocate `len(cmds)-1` pipes and delegate to
`call`. With zero commands `make([]*io.PipeWriter, len(cmds)-1)` is a `make`
with negative length, a runtime panic (`none`); otherwise the wiring loop
runs and the outcome is `call`'s. -/
def pipe (cmds : List StageBeh) : Option Bool :=
  if cmds.length = 0 then none
  else call false cmds

/-- `PipedCmds.Run` (`mago.go:110-113`): log the joined command line and
report `pipe(p.cmds...) == nil`. `some ok` is the returned boolean, `none`
means the call panics instead of returning. -/
def PipedCmdsRun (cmds : List StageBeh) : Option Bool := pipe cmds

/-- Stream wiring of one stage after the loop at `mago.go:118-124`:
`stdinCh`/`stdoutCh` name the pipe (by its index `i` in `pipeStack`) whose
read end is the stage's standard input resp. whose write end is its standard
output; `none` keeps the `NewCmd` defaults (logger output, no input). -/
structure StagePorts where
  stdinCh : Option Nat
  stdoutCh : Option Nat
deriving DecidableEq

/-- One iteration of the wiring loop (`mago.go:119-124`) at index `i`:
`stdinPipe, stdoutPipe := io.Pipe()` creates duplex channel `i`;
`cmds[i].SetStdout(stdoutPipe)` sets stage `i`'s output to its write end and
`cmds[i+1].SetStdin(stdinPipe)` sets stage `i+1`'s input to its read end. -/
def wireStep (f : Nat → StagePorts) (i : Nat) : Nat → StagePorts :=
  fun k =>
    if k = i then { f k with stdoutCh := some i }
    else if k = i + 1 then { f k with stdinCh := some i }
    else f k

/-- The wiring loop `for i := 0; i < len(cmds)-1; i++` starting at index `i`
with `steps` iterations left. -/
def wireFrom (f : Nat → StagePorts) (i : Nat) : Nat → (Nat → StagePorts)
  | 0 => f
  | steps + 1 => wireFrom (wireStep f i) (i + 1) steps

/-- Stream wiring of all `n` stages after the full loop of `pipe`
(`mago.go:117-124`), which completes before `call` is invoked at
`mago.go:125`, i.e. before any stage is started. -/
def wire (n : Nat) : Nat → StagePorts :=
  wireFrom (fun _ => ⟨none, none⟩) 0 (n - 1)

/-- Environment of one `Cmd.KillGroup` call (`mago.go:77-92`): the result of
`syscall.Getpgid(pid)` (`some pgid` or an error) and whether
`syscall.Kill(-pgid, syscall.SIGTERM)` succeeds. `NewCmd` (`mago.go:157`)
sets `Setpgid: true`, so the resolved group is the one the handle was started
in. -/
structure KillEnv where
  getpgid : Option Int
  killOk : Bool
deriving DecidableEq

/-- Observable outcome of `Cmd.KillGroup`: the returned boolean, the process
group that actually received `SIGTERM` (if any), and whether the call then
waited for the handle to exit. The wait at `mago.go:90` is written
`cmd.Wait()`; no package-level `cmd` exists in the file, the only command
value in scope is the receiver `c`, so the wait is modelled as waiting on the
receiver handle; its result is discarded. -/
structure KillRes where
  ok : Bool
  delivered : Option Int
  waited : Bool
deriving DecidableEq

/-- `Cmd.KillGroup` (`mago.go:77-92`): resolve the group id, `SIGTERM` the
whole group, wait for the handle; a failed `Getpgid` or a failed `Kill` is
logged and reported as `false` without waiting. -/
def KillGroup (env : KillEnv) : KillRes :=
  match env.getpgid with
  | none => ⟨false, none, false⟩
  | some pgid =>
    if env.killOk then ⟨true, some pgid, true⟩
    else ⟨false, none, false⟩



/-! Helper lemmas shared by several claim theorems. -/

theorem walkFn_eq_changed_iff (patterns ignoredPatterns : List String) (m : Nat)
    (statOk : Bool) (e : Entry) :
    walkFn patterns ignoredPatterns m statOk e = .skipAllChanged ↔
      (e.isErr = false ∧ ignoreMatched ignoredPatterns e.path e.name = false ∧
       watchMatched patterns e.name = true ∧ statOk = true ∧ m < e.mtime) := by
  unfold walkFn
  split_ifs with h1 h2 h3 h4 h5 <;> simp_all

theorem walkFn_eq_statFail_iff (patterns ignoredPatterns : List String) (m : Nat)
    (statOk : Bool) (e : Entry) :
    walkFn patterns ignoredPatterns m statOk e = .skipAllStat ↔
      (e.isErr = false ∧ ignoreMatched ignoredPatterns e.path e.name = false ∧
       watchMatched patterns e.name = true ∧ statOk = false) := by
  unfold walkFn
  split_ifs with h1 h2 h3 h4 h5 <;> simp_all

theorem walkFn_eq_errAbort_iff (patterns ignoredPatterns : List String) (m : Nat)
    (statOk : Bool) (e : Entry) :
    walkFn patterns ignoredPatterns m statOk e = .errAbort ↔ e.isErr = true := by
  unfold walkFn
  split_ifs with h1 h2 h3 h4 h5 <;> simp_all

theorem runWalk_changed_mem (patterns ignoredPatterns : List String) (m : Nat)
    (statOk : Bool) : ∀ l : List Entry,
    runWalk patterns ignoredPatterns m statOk l = .changed →
    ∃ e ∈ l, walkFn patterns ignoredPatterns m statOk e = .skipAllChanged := by
  intro l
  induction l with
  | nil => intro h; simp [runWalk] at h
  | cons e rest ih =>
    intro h
    cases he : walkFn patterns ignoredPatterns m statOk e with
    | cont =>
      simp only [runWalk, he] at h
      rcases ih h with ⟨x, hx, hw⟩
      exact ⟨x, List.mem_cons_of_mem _ hx, hw⟩
    | skipAllChanged => exact ⟨e, List.mem_cons_self _ _, he⟩
    | skipAllStat => simp [runWalk, he] at h
    | errAbort => simp [runWalk, he] at h

theorem runWalk_changed_of_trigger (patterns ignoredPatterns : List String) (m : Nat) :
    ∀ l : List Entry, (∀ e ∈ l, e.isErr = false) →
    (∃ e ∈ l, ignoreMatched ignoredPatterns e.path e.name = false ∧
       watchMatched patterns e.name = true ∧ m < e.mtime) →
    runWalk patterns ignoredPatterns m true l = .changed := by
  intro l
  induction l with
  | nil => rintro _ ⟨e, he, _⟩; cases he
  | cons e rest ih =>
    rintro hclean ⟨x, hx, hig, hwm, hlt⟩
    cases he : walkFn patterns ignoredPatterns m true e with
    | cont =>
      simp only [runWalk, he]
      rcases List.mem_cons.1 hx with rfl | hx2
      · have hch : walkFn patterns ignoredPatterns m true x = .skipAllChanged :=
          (walkFn_eq_changed_iff patterns ignoredPatterns m true x).2
            ⟨hclean x (List.mem_cons_self _ _), hig, hwm, rfl, hlt⟩
        rw [he] at hch; cases hch
      · exact ih (fun y hy => hclean y (List.mem_cons_of_mem _ hy)) ⟨x, hx2, hig, hwm, hlt⟩
    | skipAllChanged => simp [runWalk, he]
    | skipAllStat =>
      have hs := (walkFn_eq_statFail_iff patterns ignoredPatterns m true e).1 he
      simp at hs
    | errAbort =>
      have herr := (walkFn_eq_errAbort_iff patterns ignoredPatterns m true e).1 he
      have h0 := hclean e (List.mem_cons_self _ _)
      rw [h0] at herr; cases herr

theorem WatchFiles_eq_of_not_changed (patterns ignoredPatterns : List String)
    (root : FSNode) (now : Nat) (createOk statOk : Bool) (m : Nat)
    (h : runWalk patterns ignoredPatterns m statOk (preorderRoot root) ≠ .changed) :
    WatchFiles patterns ignoredPatterns root now createOk statOk (some m)
      = (false, some m) := by
  cases hr : runWalk patterns ignoredPatterns m statOk (preorderRoot root) with
  | changed => exact absurd hr h
  | noChange => simp [WatchFiles, checkWalk, hr]
  | statFail => simp [WatchFiles, checkWalk, hr]
  | errored => simp [WatchFiles, checkWalk, hr]

theorem call_isSome : ∀ (l : List StageBeh) (hs : Bool), l ≠ [] →
    (call hs l).isSome = true := by
  intro l
  induction l with
  | nil => intro hs h; exact absurd rfl h
  | cons s rest ih =>
    intro hs _
    cases rest with
    | nil => simp only [call]; split <;> rfl
    | cons s1 rest2 =>
      simp only [call]
      split
      · rfl
      · split
        · rfl
        · split
          · exact ih true (by simp)
          · rfl

theorem wireFrom_stdout_stable : ∀ (steps : Nat) (f : Nat → StagePorts) (i j : Nat),
    j < i → (wireFrom f i steps j).stdoutCh = (f j).stdoutCh := by
  intro steps
  induction steps with
  | zero => intro f i j _; rfl
  | succ s ih =>
    intro f i j hj
    rw [wireFrom, ih (wireStep f i) (i + 1) j (by omega)]
    have h1 : j ≠ i := by omega
    have h2 : j ≠ i + 1 := by omega
    simp [wireStep, h1, h2]

theorem wireFrom_stdin_stable : ∀ (steps : Nat) (f : Nat → StagePorts) (i j : Nat),
    j ≤ i → (wireFrom f i steps j).stdinCh = (f j).stdinCh := by
  intro steps
  induction steps with
  | zero => intro f i j _; rfl
  | succ s ih =>
    intro f i j hj
    rw [wireFrom, ih (wireStep f i) (i + 1) j (by omega)]
    by_cases h : j = i
    · subst h; simp [wireStep]
    · have h2 : j ≠ i + 1 := by omega
      simp [wireStep, h, h2]

theorem wireFrom_pair : ∀ (steps : Nat) (f : Nat → StagePorts) (i j : Nat),
    i ≤ j → j < i + steps →
    (wireFrom f i steps j).stdoutCh = some j ∧
    (wireFrom f i steps (j + 1)).stdinCh = some j := by
  intro steps
  induction steps with
  | zero => intro f i j h1 h2; omega
  | succ s ih =>
    intro f i j h1 h2
    rw [wireFrom]
    by_cases hji : j = i
    · subst hji
      constructor
      · rw [wireFrom_stdout_stable s (wireStep f j) (j + 1) j (by omega)]
        simp [wireStep]
      · rw [wireFrom_stdin_stable s (wireStep f j) (j + 1) (j + 1) (by omega)]
        simp [wireStep]
    · exact ih (wireStep f i) (i + 1) j (by omega) (by omega)

/-! Claim theorems. -/

/-- C1: the claim says that a spawn failure of any stage makes the pipeline
result `false` and that `PipedCmds.Run` reports `true` iff no stage signaled
an error. The code contradicts this: in `call` the failed-`Start` branches
return the named error `err` while it is still `nil` (`mago.go:134`, `139`),
so a pipeline whose only stage fails to start is reported as a success. This
theorem evaluates the model at that failing input. -/
theorem c1_spawn_failure_reported_as_success :
    PipedCmdsRun [⟨false, false⟩] = some true := rfl

/-- C2: `KillGroup` returns `true` exactly when the group id resolves and the
`SIGTERM` can be delivered; the group that receives the signal is the one
`Getpgid` resolved (the group the handle was started in, since `NewCmd` sets
`Setpgid`); and the call waits for the handle exactly on the success path. -/
theorem c2_killGroup_contract (env : KillEnv) :
    (KillGroup env).ok = (env.getpgid.isSome && env.killOk) ∧
    (KillGroup env).waited = (KillGroup env).ok ∧
    (KillGroup env).delivered = (if env.killOk then env.getpgid else none) := by
  cases env with
  | mk g k => cases g <;> cases k <;> simp [KillGroup]

/-- C3 counterexample: the claim says the walk never descends into an ignored
directory, hence no entry inside one is ever compared against the watched
patterns; that would force a `false` report here, where the only entry
modified after the sentinel (time 5) is `vendor/x.go`, inside the ignored
directory `vendor`. The code returns `nil` (not `filepath.SkipDir`) for an
ignored directory, descends, and reports the change. -/
theorem c3_counterexample :
    (WatchFiles ["*.go"] ["vendor"]
        (FSNode.dir "." 0 [FSNode.dir "vendor" 0 [FSNode.file "x.go" 6]])
        9 true true (some 5)).1 = true ∧
    ignoreMatched ["vendor"] "vendor" "vendor" = true ∧
    (∀ e ∈ preorderRoot
        (FSNode.dir "." 0 [FSNode.dir "vendor" 0 [FSNode.file "x.go" 6]]),
      5 < e.mtime → e.path = "vendor/x.go") := by decide

/-- C3 (amended): an entry whose full relative path or base name matches an
ignored pattern is itself skipped (it is never compared against the watched
patterns and never marks a change), and the walk simply continues with the
remaining entries in visit order, which, when the entry is a directory,
include the entries inside it: the walk still descends into ignored
directories. -/
theorem c3_ignored_entry_is_skipped (patterns ignoredPatterns : List String)
    (m : Nat) (statOk : Bool) (e : Entry) (rest : List Entry)
    (herr : e.isErr = false)
    (hig : ignoreMatched ignoredPatterns e.path e.name = true) :
    runWalk patterns ignoredPatterns m statOk (e :: rest) =
      runWalk patterns ignoredPatterns m statOk rest := by
  simp [runWalk, walkFn, herr, hig]

/-- C3 witness: the ignored directory entry `vendor` is skipped and the walk
continues with the entries after it. -/
theorem c3_witness :
    runWalk ["*.go"] ["vendor"] 5 true
        (⟨"vendor", "vendor", 9, false⟩ :: [⟨"vendor/x.go", "x.go", 6, false⟩]) =
      runWalk ["*.go"] ["vendor"] 5 true [⟨"vendor/x.go", "x.go", 6, false⟩] :=
  c3_ignored_entry_is_skipped ["*.go"] ["vendor"] 5 true
    ⟨"vendor", "vendor", 9, false⟩ [⟨"vendor/x.go", "x.go", 6, false⟩]
    (by decide) (by decide)

/-- C4: with a clean walk (no walk errors, sentinel creation and stat
succeed), once some tracked entry (watched, not ignored) has a modification
time strictly past the sentinel time `m`, the next `WatchFiles` call returns
`true` and rolls the sentinel forward to `now`; provided no entry is modified
after `now`, every subsequent call returns `false` and leaves the sentinel at
`now`, so two successive calls never both report a change. -/
theorem c4_sentinel_rolls_forward (patterns ignoredPatterns : List String)
    (root : FSNode) (m now : Nat)
    (hclean : ∀ e ∈ preorderRoot root, e.isErr = false)
    (htrig : ∃ e ∈ preorderRoot root,
      ignoreMatched ignoredPatterns e.path e.name = false ∧
      watchMatched patterns e.name = true ∧ m < e.mtime)
    (hpast : ∀ e ∈ preorderRoot root, e.mtime ≤ now) :
    WatchFiles patterns ignoredPatterns root now true true (some m)
      = (true, some now) ∧
    ∀ now2, WatchFiles patterns ignoredPatterns root now2 true true (some now)
      = (false, some now) := by
  constructor
  · have hch := runWalk_changed_of_trigger patterns ignoredPatterns m
      (preorderRoot root) hclean htrig
    simp [WatchFiles, checkWalk, hch, refreshWatchFile]
  · intro now2
    refine WatchFiles_eq_of_not_changed patterns ignoredPatterns root now2
      true true now (fun hch => ?_)
    rcases runWalk_changed_mem patterns ignoredPatterns now true
      (preorderRoot root) hch with ⟨e, he, hw⟩
    rcases (walkFn_eq_changed_iff patterns ignoredPatterns now true e).1 hw with
      ⟨-, -, -, -, hlt⟩
    exact absurd hlt (Nat.not_lt.2 (hpast e he))

/-- C4 witness: sentinel at 5, `a.go` modified at 6: the first call reports
the change and moves the sentinel to 7; the next call reports nothing. -/
theorem c4_witness :
    WatchFiles ["*.go"] [] (FSNode.dir "." 0 [FSNode.file "a.go" 6])
      7 true true (some 5) = (true, some 7) ∧
    WatchFiles ["*.go"] [] (FSNode.dir "." 0 [FSNode.file "a.go" 6])
      9 true true (some 7) = (false, some 7) :=
  ⟨(c4_sentinel_rolls_forward ["*.go"] [] (FSNode.dir "." 0 [FSNode.file "a.go" 6])
      5 7 (by decide) (by decide) (by decide)).1,
   (c4_sentinel_rolls_forward ["*.go"] [] (FSNode.dir "." 0 [FSNode.file "a.go" 6])
      5 7 (by decide) (by decide) (by decide)).2 9⟩

/-- C5 counterexample: the claim says a 2-stage pipeline whose stage 0 exits
non-zero reports failure regardless of stage 1's outcome. If stage 1 fails to
start, `call` returns the still-`nil` named error (`mago.go:139`) before ever
waiting on stage 0, and `Run` reports `true`. -/
theorem c5_counterexample :
    PipedCmdsRun [⟨true, false⟩, ⟨false, true⟩] = some true := rfl

/-- C5 (amended): for a 2-stage pipeline in which both stages start
successfully, a non-zero exit of stage 0 makes `PipedCmds.Run` return
`false`, regardless of stage 1's exit status. (When stage 1 fails to start,
`Run` returns `true` because of the `nil` named-error slip in `call`.) -/
theorem c5_first_stage_failure_propagates (s0 s1 : StageBeh)
    (h0 : s0.startOk = true) (h1 : s1.startOk = true)
    (hx : s0.exitOk = false) :
    PipedCmdsRun [s0, s1] = some false := by
  simp [PipedCmdsRun, pipe, call, h0, h1, hx]

/-- C5 witness: stage 0 exits non-zero, stage 1 starts and exits zero. -/
theorem c5_witness : PipedCmdsRun [⟨true, false⟩, ⟨true, true⟩] = some false :=
  c5_first_stage_failure_propagates ⟨true, false⟩ ⟨true, true⟩ rfl rfl rfl

/-- C6: if every entry modified after the sentinel time `m` matches an
ignored pattern (by relative path or base name), `WatchFiles` reports no
change — even when such entries also match a watched pattern: the ignore
check precedes the watched check in the walk callback. -/
theorem c6_ignored_never_triggers (patterns ignoredPatterns : List String)
    (root : FSNode) (now : Nat) (createOk statOk : Bool) (m : Nat)
    (h : ∀ e ∈ preorderRoot root, m < e.mtime →
      ignoreMatched ignoredPatterns e.path e.name = true) :
    (WatchFiles patterns ignoredPatterns root now createOk statOk
      (some m)).1 = false := by
  rw [WatchFiles_eq_of_not_changed patterns ignoredPatterns root now
    createOk statOk m (fun hch => ?_)]
  rcases runWalk_changed_mem patterns ignoredPatterns m statOk
    (preorderRoot root) hch with ⟨e, he, hw⟩
  rcases (walkFn_eq_changed_iff patterns ignoredPatterns m statOk e).1 hw with
    ⟨-, hig, -, -, hlt⟩
  rw [h e he hlt] at hig
  cases hig

/-- C6 witness: `a.go` matches both the watched pattern and the ignored
pattern and is newer than the sentinel; no change is reported. -/
theorem c6_witness :
    (WatchFiles ["*.go"] ["*.go"] (FSNode.dir "." 0 [FSNode.file "a.go" 9])
      9 true true (some 5)).1 = false :=
  c6_ignored_never_triggers ["*.go"] ["*.go"]
    (FSNode.dir "." 0 [FSNode.file "a.go" 9]) 9 true true 5 (by decide)

/-- C7: an entry whose modification time is not strictly after the sentinel
time — in particular one exactly equal to it — is never counted as changed:
if no entry is strictly newer than `m`, `WatchFiles` reports `false`. -/
theorem c7_equal_mtime_is_not_a_change (patterns ignoredPatterns : List String)
    (root : FSNode) (now : Nat) (createOk statOk : Bool) (m : Nat)
    (h : ∀ e ∈ preorderRoot root, e.mtime ≤ m) :
    (WatchFiles patterns ignoredPatterns root now createOk statOk
      (some m)).1 = false := by
  rw [WatchFiles_eq_of_not_changed patterns ignoredPatterns root now
    createOk statOk m (fun hch => ?_)]
  rcases runWalk_changed_mem patterns ignoredPatterns m statOk
    (preorderRoot root) hch with ⟨e, he, hw⟩
  rcases (walkFn_eq_changed_iff patterns ignoredPatterns m statOk e).1 hw with
    ⟨-, -, -, -, hlt⟩
  exact absurd hlt (Nat.not_lt.2 (h e he))

/-- C7 witness: `a.go` has modification time exactly equal to the sentinel
time 5 and matches the watched pattern; no change is reported. -/
theorem c7_witness :
    (WatchFiles ["*.go"] [] (FSNode.dir "." 0 [FSNode.file "a.go" 5])
      9 true true (some 5)).1 = false :=
  c7_equal_mtime_is_not_a_change ["*.go"] []
    (FSNode.dir "." 0 [FSNode.file "a.go" 5]) 9 true true 5 (by decide)

/-- C8: when the walk aborts on an error delivered by `filepath.Walk` (or on
a failed sentinel stat), that `WatchFiles` call returns `false` (no change)
and leaves the sentinel untouched, so the next poll proceeds normally from
the same state. -/
theorem c8_walk_error_yields_no_change (patterns ignoredPatterns : List String)
    (root : FSNode) (now : Nat) (createOk statOk : Bool) (m : Nat)
    (h : runWalk patterns ignoredPatterns m statOk (preorderRoot root)
          = .errored ∨
         runWalk patterns ignoredPatterns m statOk (preorderRoot root)
          = .statFail) :
    WatchFiles patterns ignoredPatterns root now createOk statOk (some m)
      = (false, some m) :=
  WatchFiles_eq_of_not_changed patterns ignoredPatterns root now createOk
    statOk m (by rcases h with h | h <;> simp [h])

/-- C8 witness: an erroring entry is visited before the modified `a.go`; the
poll reports no change and keeps the sentinel at 5. -/
theorem c8_witness :
    WatchFiles ["*.go"] []
      (FSNode.dir "." 0 [FSNode.errEntry "bad", FSNode.file "a.go" 99])
      9 true true (some 5) = (false, some 5) :=
  c8_walk_error_yields_no_change ["*.go"] []
    (FSNode.dir "." 0 [FSNode.errEntry "bad", FSNode.file "a.go" 99])
    9 true true 5 (Or.inl (by decide))

/-- C9: after the wiring loop of `pipe` — which completes before `call`
starts any stage — every adjacent pair `(i, i+1)` with `i+1 < n` is connected
through the dedicated duplex channel `i`: stage `i`'s standard output is that
channel's write end and stage `i+1`'s standard input is its read end. -/
theorem c9_adjacent_stages_share_channel (n i : Nat) (h : i + 1 < n) :
    (wire n i).stdoutCh = some i ∧ (wire n (i + 1)).stdinCh = some i := by
  have hp := wireFrom_pair (n - 1) (fun _ => ⟨none, none⟩) 0 i
    (Nat.zero_le i) (by omega)
  simpa [wire] using hp

/-- C9 witness: in a 3-stage pipeline, stage 0's output and stage 1's input
are the two ends of channel 0. -/
theorem c9_witness :
    (wire 3 0).stdoutCh = some 0 ∧ (wire 3 1).stdinCh = some 0 :=
  c9_adjacent_stages_share_channel 3 0 (by decide)

/-- C10: `PipedCmds.Run` panics instead of returning a boolean on an empty
pipeline (`make([]*io.PipeWriter, len(cmds)-1)` with negative length, and
`call` would index `stack[0]` unconditionally), and returns a boolean for
every pipeline with at least one command. -/
theorem c10_run_total_iff_nonempty :
    PipedCmdsRun [] = none ∧
    ∀ cmds : List StageBeh, cmds ≠ [] → (PipedCmdsRun cmds).isSome = true := by
  refine ⟨rfl, ?_⟩
  intro cmds h
  cases cmds with
  | nil => exact absurd rfl h
  | cons s rest =>
    simpa [PipedCmdsRun, pipe] using call_isSome (s :: rest) false (by simp)

/-- C10 witness: the empty pipeline panics; a 1-stage pipeline returns a
boolean. -/
theorem c10_witness :
    PipedCmdsRun [] = none ∧ (PipedCmdsRun [⟨true, true⟩]).isSome = true :=
  ⟨c10_run_total_iff_nonempty.1,
   c10_run_total_iff_nonempty.2 [⟨true, true⟩] (by simp)⟩

end Mago
